import Mathlib

/-!
Shallow embedding of the real-time quote / price-alert core of the
`stockmarket` repository (Go), and proofs about the claims of its
specification.

Conventions of the embedding:
* Go `float64` prices are modelled as `ℚ` (the claims concern the
  comparison logic `>=`/`<=`, not floating-point rounding).
* The SQLite alert store is modelled as a `List PriceAlert`; the SQL
  statements of `internal/db` (part_006) become list operations.
* WebSocket connections are opaque handles (`Client := ℕ`); the effect of a
  handler is recorded in explicit effect logs (deliveries, notifications,
  lock events) instead of performing I/O.
* Fallible externals (`GetQuote`, `strconv.ParseFloat`, JSON decode,
  `notifier.Send`) are passed in as `Except`/`Option`/`Bool`-valued
  parameters; the embedded functions mirror the control flow of the Go
  source around them.
-/

namespace StockMarket

/-- Opaque handle for one live WebSocket connection (`*websocket.Conn`). -/
abbrev Client := Nat

/-- `models.Quote` (internal/models/models.go), restricted to the fields the
alert path reads: `Symbol` and `Price`. -/
structure Quote where
  symbol : String
  price : ℚ
  deriving Repr, DecidableEq

/-- `models.PriceAlert` (internal/models/models.go): id, symbol,
condition ("above" | "below"), threshold price, triggered flag. -/
structure PriceAlert where
  id : Int
  symbol : String
  condition : String
  price : ℚ
  triggered : Bool
  deriving Repr, DecidableEq

/-- `models.Notification` (internal/models/models.go), the fields built by
the alert path: Type, Title, Message, Symbol. -/
structure Notification where
  ntype : String
  title : String
  message : String
  symbol : String
  deriving Repr, DecidableEq

/-- `db.GetActiveAlerts` (part_006 lines 414-436):
`SELECT ... FROM price_alerts WHERE triggered = 0`. -/
def GetActiveAlerts (store : List PriceAlert) : List PriceAlert :=
  store.filter (fun a => !a.triggered)

/-- `db.TriggerAlert` (part_006 lines 438-442):
`UPDATE price_alerts SET triggered = 1 WHERE id = ?`. -/
def TriggerAlert (id : Int) (store : List PriceAlert) : List PriceAlert :=
  store.map (fun a => if a.id = id then { a with triggered := true } else a)

/-- `db.SavePriceAlert` (part_006 lines 402-412):
`INSERT INTO price_alerts (symbol, condition, price) VALUES (?, ?, ?)`;
`triggered` takes its column default 0 and `id` the next autoincrement
value (`nextId`). -/
def SavePriceAlert (nextId : Int) (a : PriceAlert) (store : List PriceAlert) :
    List PriceAlert :=
  store ++ [{ a with id := nextId, triggered := false }]

/-- The `switch alert.Condition` block of `checkAndTriggerAlerts`
(part_005 lines 138-144): `triggered` starts false and is set only by the
"above" / "below" cases. -/
def alertCrossed (a : PriceAlert) (q : Quote) : Bool :=
  if a.condition = "above" then decide (a.price ≤ q.price)
  else if a.condition = "below" then decide (q.price ≤ a.price)
  else false

/-- The alert message `fmt.Sprintf("%s is now $%.2f (%s $%.2f)", ...)`
(part_005 line 151); the `%.2f` float rendering is abstracted by the
canonical rendering of `ℚ`. -/
def alertMessage (a : PriceAlert) (q : Quote) : String :=
  a.symbol ++ " is now $" ++ toString q.price ++ " (" ++ a.condition ++
    " $" ++ toString a.price ++ ")"

/-- The `models.Notification` literal built when an alert fires
(part_005 lines 168-173). -/
def mkAlertNotification (a : PriceAlert) (q : Quote) : Notification :=
  { ntype := "price_alert"
    title := "Price Alert: " ++ a.symbol
    message := alertMessage a q
    symbol := a.symbol }

/-- Effects of one `checkAndTriggerAlerts` call (part_005 lines 127-179):
the alert store after the `TriggerAlert` updates, the log of
`(alert id, notification)` pairs handed to `SendToChannels`, and the
WebSocket alert deliveries `(connection, alert id)` (the direct write to
the session's own connection plus the `BroadcastAlert` fan-out). -/
structure CheckResult where
  store : List PriceAlert
  log : List (Int × Notification)
  deliveries : List (Client × Int)
  deriving Repr, DecidableEq

/-- One iteration of the `for _, alert := range alerts` loop of
`checkAndTriggerAlerts` (part_005 lines 133-178): skip on symbol mismatch;
on a crossed threshold mark the alert triggered, write the alert to the
session's connection `conn` under its write mutex, broadcast it to every
registered client (`BroadcastAlert` iterates `s.clients`), and dispatch
the notification. -/
def checkStep (q : Quote) (conn : Client) (clients : List Client)
    (r : CheckResult) (a : PriceAlert) : CheckResult :=
  if a.symbol ≠ q.symbol then r
  else if alertCrossed a q then
    { store := TriggerAlert a.id r.store
      log := r.log ++ [(a.id, mkAlertNotification a q)]
      deliveries := r.deliveries ++
        ((conn, a.id) :: clients.map (fun c => (c, a.id))) }
  else r

/-- `checkAndTriggerAlerts` (part_005 lines 127-179): fetch the active
alerts once, then run the loop over that snapshot. -/
def checkAndTriggerAlerts (q : Quote) (conn : Client) (clients : List Client)
    (store : List PriceAlert) : CheckResult :=
  (GetActiveAlerts store).foldl (checkStep q conn clients)
    { store := store, log := [], deliveries := [] }

/-- The alerts of a list that match the quote's symbol and cross their
threshold (the alerts the loop body fires on). -/
def firing (q : Quote) (alerts : List PriceAlert) : List PriceAlert :=
  alerts.filter (fun a => a.symbol = q.symbol && alertCrossed a q)

/-- Elementwise effect of folding `TriggerAlert` over a list of ids. -/
def setTriggeredIf (ids : List Int) (a : PriceAlert) : PriceAlert :=
  if a.id ∈ ids then { a with triggered := true } else a

example : alertCrossed ⟨1, "AAPL", "above", 150, false⟩ ⟨"AAPL", 150⟩ = true := by decide
example : alertCrossed ⟨1, "AAPL", "below", 150, false⟩ ⟨"AAPL", 150⟩ = true := by decide
example : alertCrossed ⟨1, "AAPL", "above", 150, false⟩ ⟨"AAPL", 149⟩ = false := by decide
example :
    (checkAndTriggerAlerts ⟨"AAPL", 150⟩ 0 [0]
      [⟨1, "AAPL", "above", 150, false⟩]).deliveries = [(0, 1), (0, 1)] := by decide

theorem setTriggeredIf_id (ids : List Int) (a : PriceAlert) :
    (setTriggeredIf ids a).id = a.id := by
  unfold setTriggeredIf
  split <;> rfl

theorem setTriggeredIf_nil : setTriggeredIf [] = id := by
  funext a
  simp [setTriggeredIf]

theorem triggerAlert_foldl (ids : List Int) (store : List PriceAlert) :
    ids.foldl (fun st i => TriggerAlert i st) store =
      store.map (setTriggeredIf ids) := by
  induction ids generalizing store with
  | nil =>
    simp [setTriggeredIf_nil]
  | cons i ids ih =>
    simp only [List.foldl_cons]
    rw [ih, TriggerAlert, List.map_map]
    apply List.map_congr_left
    intro a _
    by_cases hid : a.id = i
    · by_cases hmem : a.id ∈ ids <;>
        simp [setTriggeredIf, Function.comp, hid, hmem]
    · by_cases hmem : a.id ∈ ids <;>
        simp [setTriggeredIf, Function.comp, hid, hmem]

theorem checkStep_foldl (q : Quote) (conn : Client) (clients : List Client)
    (L : List PriceAlert) (r : CheckResult) :
    L.foldl (checkStep q conn clients) r =
      { store := r.store.map (setTriggeredIf ((firing q L).map PriceAlert.id))
        log := r.log ++ (firing q L).map (fun a => (a.id, mkAlertNotification a q))
        deliveries := r.deliveries ++ (firing q L).flatMap
          (fun a => (conn, a.id) :: clients.map (fun c => (c, a.id))) } := by
  induction L generalizing r with
  | nil =>
    simp [firing, setTriggeredIf_nil]
  | cons a L ih =>
    by_cases hs : a.symbol = q.symbol
    · by_cases hc : alertCrossed a q = true
      · have hf : firing q (a :: L) = a :: firing q L := by
          simp [firing, hs, hc]
        simp only [List.foldl_cons, checkStep]
        rw [if_neg (by simp [hs]), if_pos hc, ih, hf]
        simp only [List.map_cons, List.flatMap_cons, List.append_assoc, List.cons_append]
        congr 1
        rw [TriggerAlert, List.map_map]
        apply List.map_congr_left
        intro b _
        by_cases hid : b.id = a.id
        · by_cases hmem : b.id ∈ (firing q L).map PriceAlert.id <;>
            simp [setTriggeredIf, Function.comp, hid, hmem]
        · by_cases hmem : b.id ∈ (firing q L).map PriceAlert.id <;>
            simp [setTriggeredIf, Function.comp, hid, hmem]
      · have hf : firing q (a :: L) = firing q L := by
          simp [firing, hs, hc]
        simp only [List.foldl_cons, checkStep]
        rw [if_neg (by simp [hs]), if_neg hc, ih, hf]
    · have hf : firing q (a :: L) = firing q L := by
        simp [firing, hs]
      simp only [List.foldl_cons, checkStep]
      rw [if_pos (by simp [hs]), ih, hf]

theorem id_inj_of_nodup {store : List PriceAlert}
    (hnd : (store.map PriceAlert.id).Nodup) :
    ∀ b ∈ store, ∀ c ∈ store, b.id = c.id → b = c :=
  List.inj_on_of_nodup_map hnd

theorem firing_active_sublist (q : Quote) (store : List PriceAlert) :
    (firing q (GetActiveAlerts store)).Sublist store :=
  (List.filter_sublist _).trans (List.filter_sublist _)

theorem alertCrossed_iff (a : PriceAlert) (q : Quote) :
    alertCrossed a q = true ↔
      ((a.condition = "above" ∧ a.price ≤ q.price) ∨
       (a.condition = "below" ∧ q.price ≤ a.price)) := by
  unfold alertCrossed
  by_cases h1 : a.condition = "above"
  · have hne : ("above" : String) ≠ "below" := by decide
    rw [if_pos h1]
    simp [h1, hne]
  · by_cases h2 : a.condition = "below"
    · rw [if_neg h1, if_pos h2]
      simp [h1, h2]
    · rw [if_neg h1, if_neg h2]
      simp [h1, h2]

/-- Closed form of `checkAndTriggerAlerts`. -/
theorem checkAndTriggerAlerts_eq (q : Quote) (conn : Client) (clients : List Client)
    (store : List PriceAlert) :
    checkAndTriggerAlerts q conn clients store =
      { store := store.map (setTriggeredIf
          ((firing q (GetActiveAlerts store)).map PriceAlert.id))
        log := (firing q (GetActiveAlerts store)).map
          (fun a => (a.id, mkAlertNotification a q))
        deliveries := (firing q (GetActiveAlerts store)).flatMap
          (fun a => (conn, a.id) :: clients.map (fun c => (c, a.id))) } := by
  rw [checkAndTriggerAlerts, checkStep_foldl]
  simp

/-- C1: for a quote `q` and an alert `a` returned by the active-alert
listing whose symbol equals `q.symbol`, `checkAndTriggerAlerts` marks `a`
triggered and emits a notification for it if and only if
(`a.condition = "above"` and `q.price >= a.price`) or
(`a.condition = "below"` and `q.price <= a.price`); equality of price and
threshold counts as crossed for both conditions. -/
theorem alert_trigger_iff_threshold_cross
    (q : Quote) (conn : Client) (clients : List Client)
    (store : List PriceAlert) (a : PriceAlert)
    (ha : a ∈ GetActiveAlerts store) (hsym : a.symbol = q.symbol)
    (hnd : (store.map PriceAlert.id).Nodup) :
    ((∃ n, (a.id, n) ∈ (checkAndTriggerAlerts q conn clients store).log) ∧
     (∀ b ∈ (checkAndTriggerAlerts q conn clients store).store,
        b.id = a.id → b.triggered = true)) ↔
      ((a.condition = "above" ∧ a.price ≤ q.price) ∨
       (a.condition = "below" ∧ q.price ≤ a.price)) := by
  have hastore : a ∈ store := (List.filter_sublist store).subset ha
  rw [checkAndTriggerAlerts_eq]
  constructor
  · rintro ⟨⟨n, hn⟩, -⟩
    rw [List.mem_map] at hn
    obtain ⟨b, hbT, hb⟩ := hn
    have hbid : b.id = a.id := (Prod.mk.injEq _ _ _ _).mp hb |>.1
    have hbstore : b ∈ store := (firing_active_sublist q store).subset hbT
    have hba : b = a := id_inj_of_nodup hnd b hbstore a hastore hbid
    subst hba
    have hcross : alertCrossed b q = true := by
      have h := (List.mem_filter.mp hbT).2
      simp only [Bool.and_eq_true, decide_eq_true_eq] at h
      exact h.2
    exact (alertCrossed_iff b q).mp hcross
  · intro hrhs
    have hcross : alertCrossed a q = true := (alertCrossed_iff a q).mpr hrhs
    have haT : a ∈ firing q (GetActiveAlerts store) :=
      List.mem_filter.mpr ⟨ha, by simp [hsym, hcross]⟩
    refine ⟨⟨mkAlertNotification a q, List.mem_map.mpr ⟨a, haT, rfl⟩⟩, ?_⟩
    intro b hb hbid
    rw [List.mem_map] at hb
    obtain ⟨c, hcstore, rfl⟩ := hb
    rw [setTriggeredIf_id] at hbid
    have hca : c = a := id_inj_of_nodup hnd c hcstore a hastore hbid
    subst hca
    have hmem : c.id ∈ (firing q (GetActiveAlerts store)).map PriceAlert.id :=
      List.mem_map.mpr ⟨c, haT, rfl⟩
    simp [setTriggeredIf, hmem]

theorem countP_eq_of_nodup {α : Type} [DecidableEq α] {l : List α}
    (hnd : l.Nodup) (i : α) :
    l.countP (fun x => decide (x = i)) = if i ∈ l then 1 else 0 := by
  induction l with
  | nil => simp
  | cons x l ih =>
    rcases List.nodup_cons.mp hnd with ⟨hx, hl⟩
    rw [List.countP_cons]
    by_cases hxi : x = i
    · subst hxi
      simp [hx, ih hl]
    · simp only [List.mem_cons, hxi, decide_eq_true_eq, if_neg hxi, ih hl]
      by_cases hmem : i ∈ l <;> simp [hmem, Ne.symm hxi]

theorem map_setTriggeredIf_ids (ids : List Int) (store : List PriceAlert) :
    (store.map (setTriggeredIf ids)).map PriceAlert.id = store.map PriceAlert.id := by
  rw [List.map_map]
  apply List.map_congr_left
  intro a _
  exact setTriggeredIf_id ids a

theorem firing_ids_nodup {q : Quote} {store : List PriceAlert}
    (hnd : (store.map PriceAlert.id).Nodup) :
    ((firing q (GetActiveAlerts store)).map PriceAlert.id).Nodup :=
  ((firing_active_sublist q store).map PriceAlert.id).nodup hnd

theorem firing_countP (L : List PriceAlert) (i : Int)
    (hnd : (L.map PriceAlert.id).Nodup) :
    L.countP (fun b => decide (b.id = i)) =
      if i ∈ L.map PriceAlert.id then 1 else 0 := by
  have h := countP_eq_of_nodup hnd i
  rw [List.countP_map] at h
  simpa [Function.comp] using h

theorem mem_firing_ids_iff {q : Quote} {store : List PriceAlert} {a : PriceAlert}
    (ha : a ∈ store) (hnd : (store.map PriceAlert.id).Nodup) :
    a.id ∈ (firing q (GetActiveAlerts store)).map PriceAlert.id ↔
      a ∈ firing q (GetActiveAlerts store) := by
  constructor
  · intro h
    rw [List.mem_map] at h
    obtain ⟨c, hc, hcid⟩ := h
    have hca : c = a :=
      id_inj_of_nodup hnd c ((firing_active_sublist q store).subset hc) a ha hcid
    exact hca ▸ hc
  · intro h
    exact List.mem_map.mpr ⟨a, h, rfl⟩

theorem log_countP_eq (q : Quote) (conn : Client) (clients : List Client)
    (store : List PriceAlert) (i : Int) :
    (checkAndTriggerAlerts q conn clients store).log.countP
        (fun p => decide (p.1 = i)) =
      (firing q (GetActiveAlerts store)).countP (fun b => decide (b.id = i)) := by
  rw [checkAndTriggerAlerts_eq]
  simp only []
  rw [List.countP_map]
  rfl

theorem log_mem_iff (q : Quote) (conn : Client) (clients : List Client)
    (store : List PriceAlert) (i : Int) (n : Notification) :
    (i, n) ∈ (checkAndTriggerAlerts q conn clients store).log ↔
      ∃ b ∈ firing q (GetActiveAlerts store),
        b.id = i ∧ n = mkAlertNotification b q := by
  rw [checkAndTriggerAlerts_eq]
  simp only [List.mem_map, Prod.mk.injEq]
  constructor
  · rintro ⟨b, hb, hbi, hbn⟩
    exact ⟨b, hb, hbi, hbn.symm⟩
  · rintro ⟨b, hb, hbi, hbn⟩
    exact ⟨b, hb, hbi, hbn.symm⟩

theorem alert_trigger_iff_threshold_cross_witness :
    ((⟨1, "AAPL", "above", 150, false⟩ : PriceAlert) ∈
        GetActiveAlerts [⟨1, "AAPL", "above", 150, false⟩]) ∧
    (PriceAlert.symbol ⟨1, "AAPL", "above", 150, false⟩ = Quote.symbol ⟨"AAPL", 150⟩) ∧
    (([(⟨1, "AAPL", "above", 150, false⟩ : PriceAlert)].map PriceAlert.id).Nodup) ∧
    (((∃ n, ((1 : Int), n) ∈ (checkAndTriggerAlerts ⟨"AAPL", 150⟩ 0 [0]
          [⟨1, "AAPL", "above", 150, false⟩]).log) ∧
      (∀ b ∈ (checkAndTriggerAlerts ⟨"AAPL", 150⟩ 0 [0]
          [⟨1, "AAPL", "above", 150, false⟩]).store,
        b.id = 1 → b.triggered = true)) ↔
      ((("above" : String) = "above" ∧ (150 : ℚ) ≤ 150) ∨
       (("above" : String) = "below" ∧ (150 : ℚ) ≤ 150))) :=
  ⟨by decide, by decide, by decide,
    alert_trigger_iff_threshold_cross ⟨"AAPL", 150⟩ 0 [0]
      [⟨1, "AAPL", "above", 150, false⟩] ⟨1, "AAPL", "above", 150, false⟩
      (by decide) (by decide) (by decide)⟩

/-- C2: triggering is idempotent. Evaluating the same quote twice produces
at most one notification for an alert `a` that starts untriggered, because
marking `a` triggered removes it from the active-alert listing (the
`triggered = 0` filter) that the second evaluation iterates. -/
theorem alert_trigger_idempotent
    (q : Quote) (conn : Client) (clients : List Client)
    (store : List PriceAlert) (a : PriceAlert)
    (ha : a ∈ store) (hnt : a.triggered = false)
    (hnd : (store.map PriceAlert.id).Nodup) :
    ((checkAndTriggerAlerts q conn clients store).log ++
      (checkAndTriggerAlerts q conn clients
        (checkAndTriggerAlerts q conn clients store).store).log).countP
        (fun p => decide (p.1 = a.id)) ≤ 1 ∧
    (∀ n, (a.id, n) ∈ (checkAndTriggerAlerts q conn clients store).log →
      ∀ b ∈ GetActiveAlerts (checkAndTriggerAlerts q conn clients store).store,
        b.id ≠ a.id) := by
  have hstore₁_eq : (checkAndTriggerAlerts q conn clients store).store =
      store.map (setTriggeredIf
        ((firing q (GetActiveAlerts store)).map PriceAlert.id)) := by
    rw [checkAndTriggerAlerts_eq]
  have hids₁ : ((checkAndTriggerAlerts q conn clients store).store.map PriceAlert.id) =
      store.map PriceAlert.id := by
    rw [hstore₁_eq, map_setTriggeredIf_ids]
  have hnd₁ : ((checkAndTriggerAlerts q conn clients store).store.map PriceAlert.id).Nodup := by
    rw [hids₁]; exact hnd
  rw [List.countP_append, log_countP_eq, log_countP_eq,
    firing_countP _ _ (firing_ids_nodup hnd),
    firing_countP _ _ (firing_ids_nodup hnd₁)]
  by_cases hmemT : a ∈ firing q (GetActiveAlerts store)
  · have hid₁ : a.id ∈ (firing q (GetActiveAlerts store)).map PriceAlert.id :=
      List.mem_map.mpr ⟨a, hmemT, rfl⟩
    have hexcl : ∀ b ∈ GetActiveAlerts (checkAndTriggerAlerts q conn clients store).store,
        b.id ≠ a.id := by
      intro b hb hbid
      have hbnt : b.triggered = false := by
        have h := (List.mem_filter.mp hb).2
        simpa using h
      have hb₁ : b ∈ (checkAndTriggerAlerts q conn clients store).store :=
        (List.filter_sublist _).subset hb
      rw [hstore₁_eq, List.mem_map] at hb₁
      obtain ⟨c, hc, rfl⟩ := hb₁
      rw [setTriggeredIf_id] at hbid
      have hca : c = a := id_inj_of_nodup hnd c hc a ha hbid
      have htrig : (setTriggeredIf
          ((firing q (GetActiveAlerts store)).map PriceAlert.id) c).triggered = true := by
        rw [hca]
        simp [setTriggeredIf, hid₁]
      rw [htrig] at hbnt
      exact absurd hbnt (by simp)
    have hnot₂ : a.id ∉ (firing q (GetActiveAlerts
        (checkAndTriggerAlerts q conn clients store).store)).map PriceAlert.id := by
      intro h
      rw [List.mem_map] at h
      obtain ⟨c, hc, hcid⟩ := h
      exact hexcl c ((List.filter_sublist _).subset hc) hcid
    refine ⟨?_, ?_⟩
    · rw [if_pos hid₁, if_neg hnot₂]
    · intro n _ b hb
      exact hexcl b hb
  · have hid₁ : a.id ∉ (firing q (GetActiveAlerts store)).map PriceAlert.id :=
      fun h => hmemT ((mem_firing_ids_iff ha hnd).mp h)
    have ha_active : a ∈ GetActiveAlerts store :=
      List.mem_filter.mpr ⟨ha, by simp [hnt]⟩
    have hpred : ¬(a.symbol = q.symbol ∧ alertCrossed a q = true) := by
      rintro ⟨h1, h2⟩
      exact hmemT (List.mem_filter.mpr ⟨ha_active, by simp [h1, h2]⟩)
    have haimg : a ∈ (checkAndTriggerAlerts q conn clients store).store := by
      rw [hstore₁_eq, List.mem_map]
      exact ⟨a, ha, by simp [setTriggeredIf, hid₁]⟩
    have hnot₂ : a.id ∉ (firing q (GetActiveAlerts
        (checkAndTriggerAlerts q conn clients store).store)).map PriceAlert.id := by
      intro h
      have hmem₂ := (mem_firing_ids_iff haimg hnd₁).mp h
      have hpred₂ := (List.mem_filter.mp hmem₂).2
      simp only [Bool.and_eq_true, decide_eq_true_eq] at hpred₂
      exact hpred hpred₂
    refine ⟨?_, ?_⟩
    · rw [if_neg hid₁, if_neg hnot₂]
      decide
    · intro n hn
      exfalso
      obtain ⟨b, hb, hbid, -⟩ := (log_mem_iff q conn clients store a.id n).mp hn
      exact hid₁ (List.mem_map.mpr ⟨b, hb, hbid⟩)

theorem alert_trigger_idempotent_witness :
    ((⟨1, "AAPL", "above", 150, false⟩ : PriceAlert) ∈
        [(⟨1, "AAPL", "above", 150, false⟩ : PriceAlert)]) ∧
    (PriceAlert.triggered ⟨1, "AAPL", "above", 150, false⟩ = false) ∧
    (([(⟨1, "AAPL", "above", 150, false⟩ : PriceAlert)].map PriceAlert.id).Nodup) ∧
    (((checkAndTriggerAlerts ⟨"AAPL", 150⟩ 0 [0]
          [⟨1, "AAPL", "above", 150, false⟩]).log ++
      (checkAndTriggerAlerts ⟨"AAPL", 150⟩ 0 [0]
        (checkAndTriggerAlerts ⟨"AAPL", 150⟩ 0 [0]
          [⟨1, "AAPL", "above", 150, false⟩]).store).log).countP
        (fun p => decide (p.1 = (1 : Int))) ≤ 1 ∧
     (∀ n, ((1 : Int), n) ∈ (checkAndTriggerAlerts ⟨"AAPL", 150⟩ 0 [0]
          [⟨1, "AAPL", "above", 150, false⟩]).log →
      ∀ b ∈ GetActiveAlerts (checkAndTriggerAlerts ⟨"AAPL", 150⟩ 0 [0]
          [⟨1, "AAPL", "above", 150, false⟩]).store,
        b.id ≠ (1 : Int))) :=
  ⟨by decide, by decide, by decide,
    alert_trigger_idempotent ⟨"AAPL", 150⟩ 0 [0]
      [⟨1, "AAPL", "above", 150, false⟩] ⟨1, "AAPL", "above", 150, false⟩
      (by decide) (by decide) (by decide)⟩

theorem countP_pair_map (clients : List Client) (conn : Client) (j i : Int) :
    (clients.map (fun c => (c, j))).countP (fun d => decide (d = (conn, i))) =
      if j = i then clients.countP (fun c => decide (c = conn)) else 0 := by
  induction clients with
  | nil => simp
  | cons c cs ih =>
    simp only [List.map_cons, List.countP_cons, ih]
    by_cases hj : j = i
    · subst hj
      by_cases hc : c = conn <;> simp [hc, Prod.ext_iff]
    · simp [hj, Prod.ext_iff]

theorem deliveries_countP (T : List PriceAlert) (conn : Client)
    (clients : List Client) (i : Int) :
    (T.flatMap (fun a => (conn, a.id) :: clients.map (fun c => (c, a.id)))).countP
        (fun d => decide (d = (conn, i))) =
      T.countP (fun b => decide (b.id = i)) *
        (1 + clients.countP (fun c => decide (c = conn))) := by
  induction T with
  | nil => simp
  | cons a T ih =>
    rw [List.flatMap_cons, List.countP_append, ih, List.countP_cons,
      countP_pair_map, List.countP_cons]
    by_cases hai : a.id = i
    · subst hai
      simp only [if_pos rfl, Prod.mk.injEq, true_and, decide_eq_true_eq, if_true]
      ring
    · simp only [hai, if_neg hai, Prod.mk.injEq, true_and, decide_eq_true_eq, if_false]
      ring

/-- C9: when a quote triggers an alert inside a streaming session, the
session's own connection `conn` receives the alert message twice: once via
the direct write under the session's write mutex and once more via
`BroadcastAlert`, which iterates every registered client including `conn`
itself. -/
theorem alert_sent_twice_to_triggering_session
    (q : Quote) (conn : Client) (clients : List Client)
    (store : List PriceAlert) (a : PriceAlert)
    (ha : a ∈ GetActiveAlerts store) (hsym : a.symbol = q.symbol)
    (hcross : alertCrossed a q = true)
    (hnd : (store.map PriceAlert.id).Nodup)
    (hconn : conn ∈ clients) (hndc : clients.Nodup) :
    (checkAndTriggerAlerts q conn clients store).deliveries.countP
        (fun d => decide (d = (conn, a.id))) = 2 := by
  have haT : a ∈ firing q (GetActiveAlerts store) :=
    List.mem_filter.mpr ⟨ha, by simp [hsym, hcross]⟩
  rw [checkAndTriggerAlerts_eq]
  simp only []
  rw [deliveries_countP, firing_countP _ _ (firing_ids_nodup hnd),
    if_pos (List.mem_map.mpr ⟨a, haT, rfl⟩),
    countP_eq_of_nodup hndc conn, if_pos hconn]

theorem alert_sent_twice_to_triggering_session_witness :
    ((⟨1, "AAPL", "above", 150, false⟩ : PriceAlert) ∈
        GetActiveAlerts [⟨1, "AAPL", "above", 150, false⟩]) ∧
    (PriceAlert.symbol ⟨1, "AAPL", "above", 150, false⟩ = Quote.symbol ⟨"AAPL", 151⟩) ∧
    (alertCrossed ⟨1, "AAPL", "above", 150, false⟩ ⟨"AAPL", 151⟩ = true) ∧
    ((checkAndTriggerAlerts ⟨"AAPL", 151⟩ 0 [0, 1]
        [⟨1, "AAPL", "above", 150, false⟩]).deliveries.countP
        (fun d => decide (d = ((0 : Client), (1 : Int)))) = 2) :=
  ⟨by decide, by decide, by decide,
    alert_sent_twice_to_triggering_session ⟨"AAPL", 151⟩ 0 [0, 1]
      [⟨1, "AAPL", "above", 150, false⟩] ⟨1, "AAPL", "above", 150, false⟩
      (by decide) (by decide) (by decide) (by decide) (by decide) (by decide)⟩

/-- Outcomes of the JSON alert-creation handler `handleAlerts`
(part_003 / part_001): `respondJSON(StatusCreated, alert)` or
`respondError(StatusBadRequest, ...)`. -/
inductive AlertResponse where
  | created (a : PriceAlert)
  | badRequest (msg : String)
  deriving Repr, DecidableEq

/-- Outcomes of the HTMX alert-creation handler `handleAlertsHTMX`
(part_003 lines 75-114): the rendered alerts-list partial on success, or
`htmxError` (HTTP 400) on failure. -/
inductive HtmxResponse where
  | okList
  | badRequest (msg : String)
  deriving Repr, DecidableEq

/-- Go `strings.ToUpper` (character-wise upper-casing). -/
def goToUpper (s : String) : String :=
  ⟨s.data.map Char.toUpper⟩

/-- Go `strings.TrimSpace` (strip leading and trailing whitespace). -/
def goTrimSpace (s : String) : String :=
  ⟨((s.data.dropWhile (fun c => c.isWhitespace)).reverse.dropWhile
      (fun c => c.isWhitespace)).reverse⟩

/-- `alert.Symbol = strings.ToUpper(strings.TrimSpace(alert.Symbol))`
(part_003 line 30). -/
def normalizeAlert (a : PriceAlert) : PriceAlert :=
  { a with symbol := goToUpper (goTrimSpace a.symbol) }

/-- The `http.MethodPost` branch of `handleAlerts` (part_003 lines 23-45):
decode the body (`body = none` models a JSON decode failure), normalize
the symbol, reject an empty symbol or a price `<= 0`, reject a condition
outside {"above", "below"}, otherwise insert via `SavePriceAlert` and echo
the alert with its assigned id. -/
def handleAlertsPost (nextId : Int) (body : Option PriceAlert)
    (store : List PriceAlert) : AlertResponse × List PriceAlert :=
  match body with
  | none => (.badRequest "Invalid JSON", store)
  | some alert0 =>
    if (normalizeAlert alert0).symbol = "" ∨ (normalizeAlert alert0).price ≤ 0 then
      (.badRequest "Symbol and price required", store)
    else if (normalizeAlert alert0).condition ≠ "above" ∧
        (normalizeAlert alert0).condition ≠ "below" then
      (.badRequest "Condition must be above or below", store)
    else
      (.created { normalizeAlert alert0 with id := nextId },
        SavePriceAlert nextId (normalizeAlert alert0) store)

/-- The form fields read by `handleAlertsHTMX` (part_003 lines 86-88);
`priceParsed` stands for the result of `strconv.ParseFloat(priceStr, 64)`. -/
structure AlertForm where
  symbol : String
  condition : String
  priceStr : String
  priceParsed : Option ℚ
  deriving Repr, DecidableEq

/-- `handleAlertsHTMX` (part_003 lines 75-114): requires only that the
three form fields are non-empty and that the price string parses; the
condition value and the sign of the price are not checked before
`SavePriceAlert`. -/
def handleAlertsHTMX (nextId : Int) (form : AlertForm)
    (store : List PriceAlert) : HtmxResponse × List PriceAlert :=
  if goToUpper (goTrimSpace form.symbol) = "" ∨ form.condition = "" ∨ form.priceStr = "" then
    (.badRequest "All fields are required", store)
  else
    match form.priceParsed with
    | none => (.badRequest "Invalid price", store)
    | some price =>
      (.okList, SavePriceAlert nextId
        { id := 0, symbol := goToUpper (goTrimSpace form.symbol), condition := form.condition,
          price := price, triggered := false } store)

/-- `SetupRoutes` (internal/api/handlers.go lines 84-86): the public
alert-creation route `/api/alerts` is bound to `handleAlertsHTMX`
("Changed to HTMX handler"), not to the validating `handleAlerts`. -/
def alertsRoutePost : Int → AlertForm → List PriceAlert →
    HtmxResponse × List PriceAlert :=
  handleAlertsHTMX

example :
    (alertsRoutePost 1 ⟨"AAPL", "sideways", "-5", some (-5)⟩ []).2 =
      [⟨1, "AAPL", "sideways", -5, false⟩] := by decide

/-- C3 counterexample: the routed alert-creation endpoint accepts a form
with condition "sideways" and price -5: the request succeeds and the
stored alert violates both data-model constraints. -/
theorem alert_creation_unvalidated_counterexample :
    (alertsRoutePost 1 ⟨"AAPL", "sideways", "-5", some (-5)⟩ []).1 =
      HtmxResponse.okList ∧
    ¬ (∀ a ∈ (alertsRoutePost 1 ⟨"AAPL", "sideways", "-5", some (-5)⟩ []).2,
        (a.condition = "above" ∨ a.condition = "below") ∧ 0 < a.price) := by
  decide

/-- C3 (amended): the JSON handler `handleAlertsPost` does enforce the
Alert data-model constraints — an accepted alert has condition in
{"above", "below"} and price strictly greater than 0, a violating request
is rejected with an error and the store is unchanged, and every alert in
the resulting store is either pre-existing or satisfies the constraints.
(The routed HTMX handler performs no such validation; see the
counterexample.) -/
theorem handleAlertsPost_validates (nextId : Int) (body : Option PriceAlert)
    (store : List PriceAlert) :
    (∀ a, (handleAlertsPost nextId body store).1 = AlertResponse.created a →
      (a.condition = "above" ∨ a.condition = "below") ∧ 0 < a.price) ∧
    (∀ m, (handleAlertsPost nextId body store).1 = AlertResponse.badRequest m →
      (handleAlertsPost nextId body store).2 = store) ∧
    (∀ a ∈ (handleAlertsPost nextId body store).2,
      a ∈ store ∨ ((a.condition = "above" ∨ a.condition = "below") ∧ 0 < a.price)) := by
  cases body with
  | none =>
    refine ⟨?_, ?_, ?_⟩
    · intro a h
      simp [handleAlertsPost] at h
    · intro m _
      rfl
    · intro a ha
      exact Or.inl ha
  | some alert0 =>
    by_cases h1 : (normalizeAlert alert0).symbol = "" ∨ (normalizeAlert alert0).price ≤ 0
    · refine ⟨?_, ?_, ?_⟩
      · intro a h
        rw [handleAlertsPost] at h
        rw [if_pos h1] at h
        exact absurd h (by simp)
      · intro m _
        rw [handleAlertsPost, if_pos h1]
      · intro a ha
        rw [handleAlertsPost, if_pos h1] at ha
        exact Or.inl ha
    · by_cases h2 : (normalizeAlert alert0).condition ≠ "above" ∧
          (normalizeAlert alert0).condition ≠ "below"
      · refine ⟨?_, ?_, ?_⟩
        · intro a h
          rw [handleAlertsPost, if_neg h1, if_pos h2] at h
          exact absurd h (by simp)
        · intro m _
          rw [handleAlertsPost, if_neg h1, if_pos h2]
        · intro a ha
          rw [handleAlertsPost, if_neg h1, if_pos h2] at ha
          exact Or.inl ha
      · have hcond : (normalizeAlert alert0).condition = "above" ∨
            (normalizeAlert alert0).condition = "below" := by
          rcases not_and_or.mp h2 with h | h
          · exact Or.inl (not_not.mp h)
          · exact Or.inr (not_not.mp h)
        have hprice : 0 < (normalizeAlert alert0).price := by
          push_neg at h1
          exact h1.2
        refine ⟨?_, ?_, ?_⟩
        · intro a h
          rw [handleAlertsPost, if_neg h1, if_neg h2] at h
          simp only [Prod.fst, AlertResponse.created.injEq] at h
          subst h
          exact ⟨hcond, hprice⟩
        · intro m h
          rw [handleAlertsPost, if_neg h1, if_neg h2] at h
          exact absurd h (by simp)
        · intro a ha
          rw [handleAlertsPost, if_neg h1, if_neg h2] at ha
          simp only [Prod.snd, SavePriceAlert, List.mem_append,
            List.mem_singleton] at ha
          rcases ha with ha | ha
          · exact Or.inl ha
          · subst ha
            exact Or.inr ⟨hcond, hprice⟩

theorem handleAlertsPost_validates_witness :
    ((PriceAlert.condition ⟨1, "AAPL", "above", 150, false⟩ = "above" ∨
      PriceAlert.condition ⟨1, "AAPL", "above", 150, false⟩ = "below") ∧
     0 < PriceAlert.price ⟨1, "AAPL", "above", 150, false⟩) :=
  (handleAlertsPost_validates 1 (some ⟨0, "AAPL", "above", 150, false⟩) []).1
    ⟨1, "AAPL", "above", 150, false⟩ (by decide)

/-- Lock / network events around the Subscriber Hub registry: acquiring
the shared (read) or exclusive (write) side of `clientsMu`
(`sync.RWMutex`, handlers.go line 30), releasing it, and a network write
(`conn.WriteJSON`) to client `c`. -/
inductive HubEvent where
  | acquireRead
  | acquireWrite
  | releaseLock
  | netWrite (c : Client)
  deriving Repr, DecidableEq

/-- Event trace of `BroadcastAlert` (part_005 lines 182-199):
`s.clientsMu.Lock()` — the exclusive write side — then `conn.WriteJSON`
for every registered client inside the critical section, then the
deferred `s.clientsMu.Unlock()`. -/
def BroadcastAlertTrace (clients : List Client) : List HubEvent :=
  [HubEvent.acquireWrite] ++ clients.map (fun c => HubEvent.netWrite c) ++
    [HubEvent.releaseLock]

/-- Event trace of `BroadcastToClients` (part_005 lines 201-211): the same
`Lock()` / write-loop / deferred `Unlock()` structure. -/
def BroadcastToClientsTrace (clients : List Client) : List HubEvent :=
  [HubEvent.acquireWrite] ++ clients.map (fun c => HubEvent.netWrite c) ++
    [HubEvent.releaseLock]

/-- Scans a trace and reports whether some network write happens while the
registry lock is held (`held` is the lock state on entry). -/
def netWriteWhileLocked : List HubEvent → Bool → Bool
  | [], _ => false
  | HubEvent.acquireRead :: tr, _ => netWriteWhileLocked tr true
  | HubEvent.acquireWrite :: tr, _ => netWriteWhileLocked tr true
  | HubEvent.releaseLock :: tr, _ => netWriteWhileLocked tr false
  | HubEvent.netWrite _ :: tr, held => held || netWriteWhileLocked tr held

/-- C4 counterexample: with one registered subscriber, `BroadcastAlert`
acquires the exclusive write side of the registry lock (the claim says
only the shared read side is taken) and performs a subscriber network
write while holding it (the claim says the lock is never held across a
network call). -/
theorem broadcast_lock_claim_counterexample :
    ¬ (HubEvent.acquireWrite ∉ BroadcastAlertTrace [0] ∧
       netWriteWhileLocked (BroadcastAlertTrace [0]) false = false) := by
  decide

/-- C4 (amended): all iteration over the registry in `BroadcastAlert` and
`BroadcastToClients` happens inside the `clientsMu` critical section, but
both functions acquire the exclusive write side (never the shared read
side), and whenever at least one subscriber is registered the lock is
held across the `WriteJSON` network calls to the subscribers. -/
theorem broadcast_takes_write_lock_across_writes (clients : List Client)
    (h : clients ≠ []) :
    (BroadcastAlertTrace clients).head? = some HubEvent.acquireWrite ∧
    HubEvent.acquireRead ∉ BroadcastAlertTrace clients ∧
    netWriteWhileLocked (BroadcastAlertTrace clients) false = true ∧
    (BroadcastToClientsTrace clients).head? = some HubEvent.acquireWrite ∧
    HubEvent.acquireRead ∉ BroadcastToClientsTrace clients ∧
    netWriteWhileLocked (BroadcastToClientsTrace clients) false = true := by
  obtain ⟨c, cs, rfl⟩ := List.exists_cons_of_ne_nil h
  refine ⟨rfl, ?_, ?_, rfl, ?_, ?_⟩ <;>
    simp [BroadcastAlertTrace, BroadcastToClientsTrace, netWriteWhileLocked]

theorem broadcast_takes_write_lock_across_writes_witness :
    (([0] : List Client) ≠ []) ∧
    ((BroadcastAlertTrace [0]).head? = some HubEvent.acquireWrite ∧
     HubEvent.acquireRead ∉ BroadcastAlertTrace [0] ∧
     netWriteWhileLocked (BroadcastAlertTrace [0]) false = true ∧
     (BroadcastToClientsTrace [0]).head? = some HubEvent.acquireWrite ∧
     HubEvent.acquireRead ∉ BroadcastToClientsTrace [0] ∧
     netWriteWhileLocked (BroadcastToClientsTrace [0]) false = true) :=
  ⟨by decide, broadcast_takes_write_lock_across_writes [0] (by decide)⟩

/-- Effects of `BroadcastToClients` (part_005 lines 201-211): the clients
whose `WriteJSON` succeeded, the clients whose write failed (the error is
only logged), and the registry after the loop (the loop never mutates the
client map). -/
structure BroadcastResult where
  delivered : List Client
  failedLogged : List Client
  registry : List Client
  deriving Repr, DecidableEq

/-- `BroadcastToClients` (part_005 lines 201-211): iterate the registered
set; on a write error log and continue with the remaining clients; never
remove anyone from the registry. `writeOk c` models whether
`conn.WriteJSON(msg)` succeeds for client `c`. -/
def BroadcastToClients (clients : List Client) (writeOk : Client → Bool) :
    BroadcastResult :=
  clients.foldl (fun r c =>
    if writeOk c then { r with delivered := r.delivered ++ [c] }
    else { r with failedLogged := r.failedLogged ++ [c] })
    { delivered := [], failedLogged := [], registry := clients }

theorem broadcastToClients_foldl (clients : List Client)
    (writeOk : Client → Bool) (d f reg : List Client) :
    (clients.foldl (fun (r : BroadcastResult) (c : Client) =>
        if writeOk c then { r with delivered := r.delivered ++ [c] }
        else { r with failedLogged := r.failedLogged ++ [c] })
      { delivered := d, failedLogged := f, registry := reg }) =
      { delivered := d ++ clients.filter writeOk
        failedLogged := f ++ clients.filter (fun c => !writeOk c)
        registry := reg } := by
  induction clients generalizing d f with
  | nil => simp
  | cons c cs ih =>
    by_cases hc : writeOk c = true
    · rw [List.foldl_cons, if_pos hc, ih, List.filter_cons_of_pos hc,
        List.filter_cons_of_neg (by simp [hc])]
      simp
    · rw [List.foldl_cons, if_neg hc, ih, List.filter_cons_of_neg hc,
        List.filter_cons_of_pos (by simp [Bool.not_eq_true] at hc; simp [hc])]
      simp

/-- Closed form of `BroadcastToClients`. -/
theorem BroadcastToClients_eq (clients : List Client) (writeOk : Client → Bool) :
    BroadcastToClients clients writeOk =
      { delivered := clients.filter writeOk
        failedLogged := clients.filter (fun c => !writeOk c)
        registry := clients } := by
  rw [BroadcastToClients, broadcastToClients_foldl]
  simp

theorem filter_eq_singleton_of_nodup {α : Type} [DecidableEq α]
    {l : List α} {c₀ : α} (hnd : l.Nodup) (hmem : c₀ ∈ l) :
    l.filter (fun c => decide (c = c₀)) = [c₀] := by
  induction l with
  | nil => cases hmem
  | cons x l ih =>
    rcases List.nodup_cons.mp hnd with ⟨hx, hl⟩
    by_cases hxc : x = c₀
    · subst hxc
      rw [List.filter_cons_of_pos (by simp)]
      have hnil : l.filter (fun c => decide (c = x)) = [] := by
        rw [List.filter_eq_nil_iff]
        intro a ha
        simp only [decide_eq_true_eq]
        rintro rfl
        exact hx ha
      rw [hnil]
    · rcases List.mem_cons.mp hmem with h | h
      · exact absurd h.symm hxc
      · rw [List.filter_cons_of_neg (by simp [hxc])]
        exact ih hl h

theorem countP_not_split {α : Type} (p : α → Bool) (l : List α) :
    l.length = l.countP p + l.countP (fun a => !p a) := by
  induction l with
  | nil => rfl
  | cons x xs ih =>
    rw [List.countP_cons, List.countP_cons, List.length_cons, ih]
    by_cases hx : p x = true <;> simp [hx] <;> omega

/-- C5: a write failure on one subscriber neither aborts the broadcast
loop nor removes anyone from the registry: with `N` registered clients of
which exactly `c₀` fails, every other client still receives the message
(`N - 1` deliveries), only the failure is logged, and the registry is
unchanged. -/
theorem broadcast_failure_isolated (clients : List Client)
    (writeOk : Client → Bool) (c₀ : Client)
    (h₀ : c₀ ∈ clients) (hfail : writeOk c₀ = false)
    (hok : ∀ c ∈ clients, c ≠ c₀ → writeOk c = true)
    (hnd : clients.Nodup) :
    (∀ c ∈ clients, c ≠ c₀ → c ∈ (BroadcastToClients clients writeOk).delivered) ∧
    (BroadcastToClients clients writeOk).delivered.length = clients.length - 1 ∧
    (BroadcastToClients clients writeOk).failedLogged = [c₀] ∧
    (BroadcastToClients clients writeOk).registry = clients := by
  rw [BroadcastToClients_eq]
  have hfilt : clients.filter (fun c => !writeOk c) =
      clients.filter (fun c => decide (c = c₀)) := by
    apply List.filter_congr
    intro c hc
    by_cases hcc : c = c₀
    · subst hcc
      simp [hfail]
    · simp [hok c hc hcc, hcc]
  have hcount : clients.countP (fun c => decide (c = c₀)) = 1 := by
    rw [countP_eq_of_nodup hnd, if_pos h₀]
  refine ⟨?_, ?_, ?_, rfl⟩
  · intro c hc hne
    exact List.mem_filter.mpr ⟨hc, hok c hc hne⟩
  · have hsplit : clients.length = clients.countP (fun c => decide (c = c₀)) +
        clients.countP (fun c => !decide (c = c₀)) :=
      countP_not_split _ clients
    have hlen₁ : (clients.filter writeOk).length =
        clients.countP (fun c => !decide (c = c₀)) := by
      rw [← List.countP_eq_length_filter]
      apply List.countP_congr
      intro c hc
      by_cases hcc : c = c₀
      · subst hcc
        simp [hfail]
      · simp [hok c hc hcc, hcc]
    simp only [hlen₁]
    omega
  · rw [hfilt, filter_eq_singleton_of_nodup hnd h₀]

theorem broadcast_failure_isolated_witness :
    ((0 : Client) ∈ [0, 1, 2]) ∧
    ((fun c => decide (c ≠ 0)) (0 : Client) = false) ∧
    ((∀ c ∈ ([0, 1, 2] : List Client), c ≠ 0 →
        c ∈ (BroadcastToClients [0, 1, 2] (fun c => decide (c ≠ 0))).delivered) ∧
     (BroadcastToClients [0, 1, 2] (fun c => decide (c ≠ 0))).delivered.length =
        ([0, 1, 2] : List Client).length - 1 ∧
     (BroadcastToClients [0, 1, 2] (fun c => decide (c ≠ 0))).failedLogged = [0] ∧
     (BroadcastToClients [0, 1, 2] (fun c => decide (c ≠ 0))).registry = [0, 1, 2]) :=
  ⟨by decide, by decide,
    broadcast_failure_isolated [0, 1, 2] (fun c => decide (c ≠ 0)) 0
      (by decide) (by decide) (by decide) (by decide)⟩

/-- Registration (`s.clients[conn] = true`, part_005 lines 26-28): insert
the connection as a map key. -/
def registerClient (c : Client) (reg : List Client) : List Client :=
  if c ∈ reg then reg else reg ++ [c]

/-- Deregistration (`delete(s.clients, conn)` in the session's deferred
teardown, part_005 lines 30-36): delete the map key; Go map `delete` of an
absent key is a no-op. -/
def deregisterClient (c : Client) (reg : List Client) : List Client :=
  reg.filter (fun x => decide (x ≠ c))

/-- C8: deregistration is idempotent (deregistering twice equals once, and
removing a non-member changes nothing), the deregistered connection is no
longer in the registry, and a broadcast over any registry not containing
the connection never delivers to it (nor even attempts a failed write):
each broadcast iterates only the currently registered set. -/
theorem deregister_idempotent_and_unreachable
    (c : Client) (reg reg₂ : List Client) (writeOk : Client → Bool)
    (h : c ∉ reg₂) :
    deregisterClient c (deregisterClient c reg) = deregisterClient c reg ∧
    (c ∉ reg → deregisterClient c reg = reg) ∧
    c ∉ deregisterClient c reg ∧
    c ∉ (BroadcastToClients reg₂ writeOk).delivered ∧
    c ∉ (BroadcastToClients reg₂ writeOk).failedLogged := by
  refine ⟨?_, ?_, ?_, ?_, ?_⟩
  · simp only [deregisterClient]
    rw [List.filter_filter]
    apply List.filter_congr
    intro x _
    simp
  · intro hnm
    rw [deregisterClient, List.filter_eq_self]
    intro x hx
    simp only [ne_eq, decide_not, Bool.not_eq_eq_eq_not, Bool.not_true,
      decide_eq_false_iff_not]
    rintro rfl
    exact hnm hx
  · intro hmem
    have hpred := (List.mem_filter.mp hmem).2
    simp at hpred
  · rw [BroadcastToClients_eq]
    intro hmem
    exact h ((List.filter_sublist _).subset hmem)
  · rw [BroadcastToClients_eq]
    intro hmem
    exact h ((List.filter_sublist _).subset hmem)

theorem deregister_idempotent_and_unreachable_witness :
    ((0 : Client) ∉ ([1, 2] : List Client)) ∧
    (deregisterClient 0 (deregisterClient 0 [0, 1]) = deregisterClient 0 [0, 1] ∧
     ((0 : Client) ∉ ([0, 1] : List Client) → deregisterClient 0 [0, 1] = [0, 1]) ∧
     (0 : Client) ∉ deregisterClient 0 [0, 1] ∧
     (0 : Client) ∉ (BroadcastToClients [1, 2] (fun _ => true)).delivered ∧
     (0 : Client) ∉ (BroadcastToClients [1, 2] (fun _ => true)).failedLogged) :=
  ⟨by decide,
    deregister_idempotent_and_unreachable 0 [0, 1] [1, 2] (fun _ => true) (by decide)⟩

/-- Market-data errors (part_008): `ErrInvalidSymbol`, `ErrRateLimited`,
`ErrAPIError`. -/
inductive MarketErr where
  | invalidSymbol
  | rateLimited
  | apiError
  deriving Repr, DecidableEq

/-- One ticker tick of `AlphaVantage.StreamQuotes`
(internal/market/alphavantage.go lines 208-231): iterate the symbols in
order, call `GetQuote`, `continue // Skip on error`, and push the quote
into the channel on success. Returns the quotes pushed in this tick. -/
def streamQuotesTick (symbols : List String)
    (getQuote : String → Except MarketErr Quote) : List Quote :=
  symbols.foldl (fun acc s =>
    match getQuote s with
    | .error _ => acc
    | .ok q => acc ++ [q]) []

/-- The configuration fields read by the poller (`models.UserConfig`):
`TrackedSymbols` and `PollingInterval` (seconds). -/
structure UserConfig where
  trackedSymbols : List String
  pollingInterval : Int
  deriving Repr, DecidableEq

/-- Effects of one `pollAndCheckAlerts` tick (part_005 lines 232-307):
symbols for which `GetQuote` was invoked, quotes broadcast to the
WebSocket clients, number of alert comparisons performed, the
`(alert id, notification)` trigger log, and the alert store afterwards. -/
structure PollResult where
  fetched : List String
  quoteBroadcasts : List Quote
  alertEvals : Nat
  log : List (Int × Notification)
  store : List PriceAlert
  deriving Repr, DecidableEq

/-- The tick result when the poller returns early: no fetch, no
broadcast, no alert evaluation, store untouched. -/
def emptyPoll (store : List PriceAlert) : PollResult :=
  { fetched := [], quoteBroadcasts := [], alertEvals := 0, log := [], store := store }

/-- One iteration of the inner `for _, alert := range alerts` loop of
`pollAndCheckAlerts` (part_005 lines 274-305). -/
def pollAlertStep (q : Quote) (r : PollResult) (a : PriceAlert) : PollResult :=
  if a.symbol ≠ q.symbol then { r with alertEvals := r.alertEvals + 1 }
  else if alertCrossed a q then
    { r with
      alertEvals := r.alertEvals + 1
      store := TriggerAlert a.id r.store
      log := r.log ++ [(a.id, mkAlertNotification a q)] }
  else { r with alertEvals := r.alertEvals + 1 }

/-- One iteration of the outer `for _, symbol := range cfg.TrackedSymbols`
loop (part_005 lines 256-306): `GetQuote`; on error `continue`; on
success broadcast the quote to all clients, re-read the active alerts and
run the inner loop. -/
def pollStep (getQuote : String → Except MarketErr Quote)
    (r : PollResult) (sym : String) : PollResult :=
  match getQuote sym with
  | .error _ => { r with fetched := r.fetched ++ [sym] }
  | .ok q =>
    (GetActiveAlerts r.store).foldl (pollAlertStep q)
      { r with
        fetched := r.fetched ++ [sym]
        quoteBroadcasts := r.quoteBroadcasts ++ [q] }

/-- `pollAndCheckAlerts` (part_005 lines 232-307): return early when the
config cannot be read (`cfg = none`), when the tracked-symbol set is
empty, or when the polling interval is `<= 0`; otherwise run the
fetch-broadcast-evaluate loop over the tracked symbols. -/
def pollAndCheckAlerts (cfg : Option UserConfig)
    (getQuote : String → Except MarketErr Quote)
    (store : List PriceAlert) : PollResult :=
  match cfg with
  | none => emptyPoll store
  | some c =>
    if c.trackedSymbols = [] then emptyPoll store
    else if c.pollingInterval ≤ 0 then emptyPoll store
    else c.trackedSymbols.foldl (pollStep getQuote) (emptyPoll store)

theorem streamQuotesTick_foldl (symbols : List String)
    (getQuote : String → Except MarketErr Quote) (acc : List Quote) :
    symbols.foldl (fun acc s =>
        match getQuote s with
        | .error _ => acc
        | .ok q => acc ++ [q]) acc =
      acc ++ symbols.filterMap (fun s => (getQuote s).toOption) := by
  induction symbols generalizing acc with
  | nil => simp
  | cons s ss ih =>
    rw [List.foldl_cons]
    cases hgs : getQuote s with
    | error e =>
      simp only [hgs]
      rw [ih]
      simp [hgs, Except.toOption]
    | ok q =>
      simp only [hgs]
      rw [ih]
      simp [hgs, Except.toOption]

/-- Closed form of `streamQuotesTick`: exactly the successful fetches, in
symbol order. -/
theorem streamQuotesTick_eq (symbols : List String)
    (getQuote : String → Except MarketErr Quote) :
    streamQuotesTick symbols getQuote =
      symbols.filterMap (fun s => (getQuote s).toOption) := by
  rw [streamQuotesTick, streamQuotesTick_foldl]
  simp

theorem pollAlertStep_foldl_preserves (q : Quote) (alerts : List PriceAlert)
    (r : PollResult) :
    (alerts.foldl (pollAlertStep q) r).quoteBroadcasts = r.quoteBroadcasts ∧
    (alerts.foldl (pollAlertStep q) r).fetched = r.fetched := by
  induction alerts generalizing r with
  | nil => exact ⟨rfl, rfl⟩
  | cons a as ih =>
    constructor
    · rw [List.foldl_cons, (ih _).1]
      unfold pollAlertStep
      split
      · rfl
      · split <;> rfl
    · rw [List.foldl_cons, (ih _).2]
      unfold pollAlertStep
      split
      · rfl
      · split <;> rfl

theorem pollStep_error {getQuote : String → Except MarketErr Quote}
    {sym : String} {e : MarketErr} (r : PollResult)
    (h : getQuote sym = Except.error e) :
    pollStep getQuote r sym = { r with fetched := r.fetched ++ [sym] } := by
  unfold pollStep
  rw [h]

theorem pollStep_ok {getQuote : String → Except MarketErr Quote}
    {sym : String} {q : Quote} (r : PollResult)
    (h : getQuote sym = Except.ok q) :
    pollStep getQuote r sym =
      (GetActiveAlerts r.store).foldl (pollAlertStep q)
        { r with
          fetched := r.fetched ++ [sym]
          quoteBroadcasts := r.quoteBroadcasts ++ [q] } := by
  unfold pollStep
  rw [h]

theorem poll_foldl_quoteBroadcasts (getQuote : String → Except MarketErr Quote)
    (symbols : List String) (r : PollResult) :
    (symbols.foldl (pollStep getQuote) r).quoteBroadcasts =
      r.quoteBroadcasts ++ symbols.filterMap (fun s => (getQuote s).toOption) := by
  induction symbols generalizing r with
  | nil => simp
  | cons s ss ih =>
    rw [List.foldl_cons]
    cases hgs : getQuote s with
    | error e =>
      rw [pollStep_error r hgs, ih]
      simp [hgs, Except.toOption]
    | ok q =>
      rw [pollStep_ok r hgs, ih, (pollAlertStep_foldl_preserves q _ _).1]
      simp [hgs, Except.toOption]

theorem pollAndCheckAlerts_some (c : UserConfig)
    (getQuote : String → Except MarketErr Quote) (store : List PriceAlert) :
    pollAndCheckAlerts (some c) getQuote store =
      if c.trackedSymbols = [] then emptyPoll store
      else if c.pollingInterval ≤ 0 then emptyPoll store
      else c.trackedSymbols.foldl (pollStep getQuote) (emptyPoll store) := rfl

/-- C6: on a tick of the quote stream and of the background poller, a
`GetQuote` failure for one symbol is swallowed and iteration continues
with the remaining symbols of the batch, so a quote fetched successfully
for any other symbol is still pushed to the stream channel and broadcast
by the poller in the same tick. -/
theorem bad_symbol_skipped_batch_continues
    (symbols : List String) (getQuote : String → Except MarketErr Quote)
    (store : List PriceAlert) (interval : Int) (s : String) (q : Quote)
    (hs : s ∈ symbols) (hq : getQuote s = Except.ok q)
    (hne : symbols ≠ []) (hint : 0 < interval) :
    q ∈ streamQuotesTick symbols getQuote ∧
    q ∈ (pollAndCheckAlerts
        (some { trackedSymbols := symbols, pollingInterval := interval })
        getQuote store).quoteBroadcasts := by
  constructor
  · rw [streamQuotesTick_eq, List.mem_filterMap]
    exact ⟨s, hs, by rw [hq]; rfl⟩
  · rw [pollAndCheckAlerts_some]
    rw [if_neg hne, if_neg (by simpa using not_le.mpr hint),
      poll_foldl_quoteBroadcasts]
    rw [List.mem_append, List.mem_filterMap]
    exact Or.inr ⟨s, hs, by rw [hq]; rfl⟩

theorem bad_symbol_skipped_batch_continues_witness :
    (("AAPL" : String) ∈ ["BADSYM", "AAPL"]) ∧
    ((fun s => if s = "AAPL" then Except.ok (⟨"AAPL", 150⟩ : Quote)
        else Except.error MarketErr.invalidSymbol) "AAPL" =
      Except.ok (⟨"AAPL", 150⟩ : Quote)) ∧
    ((["BADSYM", "AAPL"] : List String) ≠ []) ∧
    ((0 : Int) < 30) ∧
    ((⟨"AAPL", 150⟩ : Quote) ∈ streamQuotesTick ["BADSYM", "AAPL"]
        (fun s => if s = "AAPL" then Except.ok (⟨"AAPL", 150⟩ : Quote)
          else Except.error MarketErr.invalidSymbol) ∧
     (⟨"AAPL", 150⟩ : Quote) ∈ (pollAndCheckAlerts
        (some { trackedSymbols := ["BADSYM", "AAPL"], pollingInterval := 30 })
        (fun s => if s = "AAPL" then Except.ok (⟨"AAPL", 150⟩ : Quote)
          else Except.error MarketErr.invalidSymbol) []).quoteBroadcasts) :=
  ⟨by decide, rfl, by decide, by decide,
    bad_symbol_skipped_batch_continues ["BADSYM", "AAPL"]
      (fun s => if s = "AAPL" then Except.ok (⟨"AAPL", 150⟩ : Quote)
        else Except.error MarketErr.invalidSymbol) [] 30 "AAPL" ⟨"AAPL", 150⟩
      (by decide) rfl (by decide) (by decide)⟩

/-- C7: a poller tick with polling interval `<= 0` or with an empty
tracked-symbol set performs zero quote fetches, zero broadcasts, and zero
alert evaluations, emits no notifications and leaves the store unchanged
(the tick returns early). -/
theorem poller_disabled_no_side_effects (cfg : UserConfig)
    (getQuote : String → Except MarketErr Quote) (store : List PriceAlert)
    (h : cfg.pollingInterval ≤ 0 ∨ cfg.trackedSymbols = []) :
    (pollAndCheckAlerts (some cfg) getQuote store).fetched = [] ∧
    (pollAndCheckAlerts (some cfg) getQuote store).quoteBroadcasts = [] ∧
    (pollAndCheckAlerts (some cfg) getQuote store).alertEvals = 0 ∧
    (pollAndCheckAlerts (some cfg) getQuote store).log = [] ∧
    (pollAndCheckAlerts (some cfg) getQuote store).store = store := by
  have hempty : pollAndCheckAlerts (some cfg) getQuote store = emptyPoll store := by
    rw [pollAndCheckAlerts_some]
    rcases h with h | h
    · by_cases hsym : cfg.trackedSymbols = []
      · rw [if_pos hsym]
      · rw [if_neg hsym, if_pos h]
    · rw [if_pos h]
  rw [hempty]
  exact ⟨rfl, rfl, rfl, rfl, rfl⟩

theorem poller_disabled_no_side_effects_witness :
    ((UserConfig.pollingInterval ⟨["AAPL"], 0⟩ ≤ 0 ∨
      UserConfig.trackedSymbols ⟨["AAPL"], 0⟩ = []) ∧
     ((pollAndCheckAlerts (some ⟨["AAPL"], 0⟩)
        (fun _ => Except.error MarketErr.apiError)
        [⟨1, "AAPL", "above", 150, false⟩]).fetched = [] ∧
      (pollAndCheckAlerts (some ⟨["AAPL"], 0⟩)
        (fun _ => Except.error MarketErr.apiError)
        [⟨1, "AAPL", "above", 150, false⟩]).quoteBroadcasts = [] ∧
      (pollAndCheckAlerts (some ⟨["AAPL"], 0⟩)
        (fun _ => Except.error MarketErr.apiError)
        [⟨1, "AAPL", "above", 150, false⟩]).alertEvals = 0 ∧
      (pollAndCheckAlerts (some ⟨["AAPL"], 0⟩)
        (fun _ => Except.error MarketErr.apiError)
        [⟨1, "AAPL", "above", 150, false⟩]).log = [] ∧
      (pollAndCheckAlerts (some ⟨["AAPL"], 0⟩)
        (fun _ => Except.error MarketErr.apiError)
        [⟨1, "AAPL", "above", 150, false⟩]).store =
          [⟨1, "AAPL", "above", 150, false⟩])) :=
  ⟨Or.inl (by decide),
    poller_disabled_no_side_effects ⟨["AAPL"], 0⟩
      (fun _ => Except.error MarketErr.apiError)
      [⟨1, "AAPL", "above", 150, false⟩] (Or.inl (by decide))⟩

/-- `models.NotificationConfig` (internal/models/models.go): channel type
("email" | "discord" | "sms"), target, enabled flag, subscribed event
names. -/
structure NotificationConfig where
  type : String
  target : String
  enabled : Bool
  events : List String
  deriving Repr, DecidableEq

/-- Errors appended by `SendToChannels` (part_009): a missing notifier for
a channel type, or a failed `notifier.Send`. -/
inductive NotifyErr where
  | noNotifier (t : String)
  | sendFailed (t target : String)
  deriving Repr, DecidableEq

/-- Effects of `SendToChannels` (part_009 lines 69-110): the
`(type, target)` pairs for which `notifier.Send` was invoked, and the
accumulated error list it returns. -/
structure SendLog where
  sends : List (String × String)
  errs : List NotifyErr
  deriving Repr, DecidableEq

/-- One iteration of the `for _, ch := range channels` loop of
`SendToChannels` (part_009 lines 74-107): skip a disabled channel; skip a
channel whose `Events` list does not contain the notification's `Type`
(the linear `eventMatch` scan); append an error and continue when no
notifier is registered for the channel type; otherwise call
`notifier.Send` and append its error on failure. `registered t` models
`s.notifiers[t]` lookup success and `sendFails t target` models
`notifier.Send` returning a non-nil error. -/
def sendToChannelsStep (registered : String → Bool)
    (sendFails : String → String → Bool) (n : Notification)
    (st : SendLog) (ch : NotificationConfig) : SendLog :=
  if !ch.enabled then st
  else if !(ch.events.contains n.ntype) then st
  else if !registered ch.type then
    { st with errs := st.errs ++ [NotifyErr.noNotifier ch.type] }
  else if sendFails ch.type ch.target then
    { st with
      sends := st.sends ++ [(ch.type, ch.target)]
      errs := st.errs ++ [NotifyErr.sendFailed ch.type ch.target] }
  else { st with sends := st.sends ++ [(ch.type, ch.target)] }

/-- `notify.Service.SendToChannels` (part_009 lines 69-110). -/
def SendToChannels (registered : String → Bool)
    (sendFails : String → String → Bool) (n : Notification)
    (channels : List NotificationConfig) : SendLog :=
  channels.foldl (sendToChannelsStep registered sendFails n) ⟨[], []⟩

theorem sendToChannels_foldl (registered : String → Bool)
    (sendFails : String → String → Bool) (n : Notification)
    (channels : List NotificationConfig) (st : SendLog) :
    channels.foldl (sendToChannelsStep registered sendFails n) st =
      { sends := st.sends ++ channels.filterMap (fun ch =>
          if ch.enabled && ch.events.contains n.ntype && registered ch.type
          then some (ch.type, ch.target) else none)
        errs := st.errs ++ channels.filterMap (fun ch =>
          if ch.enabled && ch.events.contains n.ntype then
            if !registered ch.type then some (NotifyErr.noNotifier ch.type)
            else if sendFails ch.type ch.target then
              some (NotifyErr.sendFailed ch.type ch.target)
            else none
          else none) } := by
  induction channels generalizing st with
  | nil => simp
  | cons ch chs ih =>
    rw [List.foldl_cons, ih]
    unfold sendToChannelsStep
    by_cases h1 : ch.enabled = true
    · by_cases h2 : n.ntype ∈ ch.events
      · by_cases h3 : registered ch.type = true
        · by_cases h4 : sendFails ch.type ch.target = true
          · simp [h1, h2, h3, h4, List.filterMap_cons]
          · simp [h1, h2, h3, h4, List.filterMap_cons]
        · simp [h1, h2, h3, List.filterMap_cons]
      · simp [h1, h2, List.filterMap_cons]
    · simp [h1, List.filterMap_cons]

/-- C10: the dispatch attempts `notifier.Send` for exactly the channels
that are enabled, whose `Events` list contains the notification's type,
and whose type has a registered notifier; the returned error list holds
exactly one `noNotifier` error per enabled event-matching channel without
a registered notifier (dispatch continuing past it) plus one `sendFailed`
error per failed send — so an enabled channel whose `Events` list is empty
or lacks the type gets no send and contributes no error. -/
theorem sendToChannels_dispatch_spec (registered : String → Bool)
    (sendFails : String → String → Bool) (n : Notification)
    (channels : List NotificationConfig) :
    (SendToChannels registered sendFails n channels).sends =
      channels.filterMap (fun ch =>
        if ch.enabled && ch.events.contains n.ntype && registered ch.type
        then some (ch.type, ch.target) else none) ∧
    (SendToChannels registered sendFails n channels).errs =
      channels.filterMap (fun ch =>
        if ch.enabled && ch.events.contains n.ntype then
          if !registered ch.type then some (NotifyErr.noNotifier ch.type)
          else if sendFails ch.type ch.target then
            some (NotifyErr.sendFailed ch.type ch.target)
          else none
        else none) := by
  rw [SendToChannels, sendToChannels_foldl]
  exact ⟨rfl, rfl⟩

example :
    (SendToChannels (fun t => decide (t = "email" ∨ t = "discord"))
      (fun _ _ => false) ⟨"price_alert", "T", "M", "AAPL"⟩
      [⟨"email", "a@b.c", true, ["price_alert"]⟩,
       ⟨"discord", "hook", true, []⟩,
       ⟨"sms", "555", true, ["price_alert"]⟩,
       ⟨"email", "d@e.f", false, ["price_alert"]⟩]).sends =
      [("email", "a@b.c")] := by decide

example :
    (SendToChannels (fun t => decide (t = "email" ∨ t = "discord"))
      (fun _ _ => false) ⟨"price_alert", "T", "M", "AAPL"⟩
      [⟨"email", "a@b.c", true, ["price_alert"]⟩,
       ⟨"discord", "hook", true, []⟩,
       ⟨"sms", "555", true, ["price_alert"]⟩,
       ⟨"email", "d@e.f", false, ["price_alert"]⟩]).errs =
      [NotifyErr.noNotifier "sms"] := by decide

end StockMarket
